import Mathlib

/-!
Verification of the yoto-js core against its specification: the HTTP retry
pipeline (src/http-client.ts), the auth providers and JWT expiry check
(auth-provider / auth sources), and the webhook signature verifier
(src/webhooks.ts).  JavaScript strings are embedded as lists of characters;
platform builtins (HMAC-SHA256, JSON.parse, base64 decoding, Math.random,
Date.now) appear as explicit function parameters or numeric arguments.
-/

namespace YotoJS

/-- Strings from the JavaScript source are embedded as lists of characters. -/
abbrev Str := List Char

/-- Model of JavaScript `String.prototype.split` with a single-character
separator: splitting "a,b,,c" on ',' gives ["a","b","","c"], and splitting the
empty string gives [""]. -/
def splitOnChar (sep : Char) : Str → List Str
  | [] => [[]]
  | c :: rest =>
    let r := splitOnChar sep rest
    if c = sep then [] :: r
    else
      match r with
      | h :: t => (c :: h) :: t
      | [] => [[c]]

/-- Numeric value of a run of decimal digit characters (the accumulation inside
JavaScript `Number.parseInt`). -/
def digitsToNat (ds : Str) : Nat :=
  ds.foldl (fun a c => a * 10 + (c.toNat - 48)) 0

/-- Longest leading run of decimal digits of a string, or `none` when the
string does not start with a digit (JavaScript `parseInt` yields NaN then). -/
def parseLeadingDigits (cs : Str) : Option Nat :=
  let ds := cs.takeWhile Char.isDigit
  if ds = [] then none else some (digitsToNat ds)

/-- Model of JavaScript `Number.parseInt(s, 10)`: skip leading whitespace, read
an optional sign and then the longest run of decimal digits; `none` models the
NaN result. -/
def parseIntJS (s : Str) : Option Int :=
  match s.dropWhile Char.isWhitespace with
  | [] => none
  | c :: rest =>
    if c = '-' then (parseLeadingDigits rest).map (fun n => -(n : Int))
    else if c = '+' then (parseLeadingDigits rest).map (fun n => (n : Int))
    else (parseLeadingDigits (c :: rest)).map (fun n => (n : Int))

/-- Decimal rendering of a natural number, as JavaScript `String(n)` produces
for a nonnegative integer.  A fuel argument keeps the recursion structural. -/
def natToDecimalAux : Nat → Nat → Str
  | 0, _ => []
  | _ + 1, n =>
    if n < 10 then [Char.ofNat (48 + n)]
    else natToDecimalAux n (n / 10) ++ [Char.ofNat (48 + n % 10)]

/-- Decimal rendering of a natural number (JavaScript `String(n)`). -/
def natToDecimal (n : Nat) : Str := natToDecimalAux (n + 1) n

theorem natToDecimalAux_fuel (n : Nat) :
    ∀ fuel fuel2, n < fuel → n < fuel2 →
      natToDecimalAux fuel n = natToDecimalAux fuel2 n := by
  induction n using Nat.strong_induction_on with
  | _ n ih =>
    intro fuel fuel2 h1 h2
    obtain ⟨f, rfl⟩ : ∃ f, fuel = f + 1 := ⟨fuel - 1, by omega⟩
    obtain ⟨g, rfl⟩ : ∃ g, fuel2 = g + 1 := ⟨fuel2 - 1, by omega⟩
    by_cases hlt : n < 10
    · simp [natToDecimalAux, hlt]
    · have hn : 0 < n := by omega
      have hdiv : n / 10 < n := Nat.div_lt_self hn (by omega)
      simp only [natToDecimalAux, hlt, if_false]

theorem natToDecimal_step (n : Nat) (h : ¬ n < 10) :
    natToDecimal n = natToDecimal (n / 10) ++ [Char.ofNat (48 + n % 10)] := by
  have hn : 0 < n := by omega
  have hdiv : n / 10 < n := Nat.div_lt_self hn (by omega)
  have h1 : natToDecimalAux (n + 1) n
      = natToDecimalAux n (n / 10) ++ [Char.ofNat (48 + n % 10)] := by
    simp only [natToDecimalAux, h, if_false]
  rw [natToDecimal, h1, natToDecimal,
    natToDecimalAux_fuel (n / 10) n (n / 10 + 1) hdiv (by omega)]

theorem natToDecimal_small (n : Nat) (h : n < 10) :
    natToDecimal n = [Char.ofNat (48 + n)] := by
  simp [natToDecimal, natToDecimalAux, h]

theorem natToDecimal_ne_nil (n : Nat) : natToDecimal n ≠ [] := by
  by_cases h : n < 10
  · rw [natToDecimal_small n h]; simp
  · rw [natToDecimal_step n h]; simp

theorem digit_char_isDigit (d : Nat) (h : d < 10) :
    (Char.ofNat (48 + d)).isDigit = true := by
  interval_cases d <;> decide

theorem digit_char_toNat (d : Nat) (h : d < 10) :
    (Char.ofNat (48 + d)).toNat = 48 + d := by
  interval_cases d <;> decide

theorem natToDecimal_all_digits (n : Nat) :
    ∀ c ∈ natToDecimal n, c.isDigit = true := by
  induction n using Nat.strong_induction_on with
  | _ n ih =>
    intro c hc
    by_cases h : n < 10
    · rw [natToDecimal_small n h] at hc
      simp at hc
      subst hc
      exact digit_char_isDigit n h
    · rw [natToDecimal_step n h] at hc
      rw [List.mem_append] at hc
      cases hc with
      | inl hm =>
        have hn : 0 < n := by omega
        exact ih (n / 10) (Nat.div_lt_self hn (by omega)) c hm
      | inr hm =>
        simp at hm
        subst hm
        exact digit_char_isDigit (n % 10) (Nat.mod_lt _ (by omega))

theorem digitsToNat_append_single (a : Str) (c : Char) :
    digitsToNat (a ++ [c]) = digitsToNat a * 10 + (c.toNat - 48) := by
  simp [digitsToNat, List.foldl_append]

theorem digitsToNat_natToDecimal (n : Nat) : digitsToNat (natToDecimal n) = n := by
  induction n using Nat.strong_induction_on with
  | _ n ih =>
    by_cases h : n < 10
    · rw [natToDecimal_small n h]
      simp [digitsToNat, digit_char_toNat n h]
    · rw [natToDecimal_step n h, digitsToNat_append_single]
      have hn : 0 < n := by omega
      rw [ih (n / 10) (Nat.div_lt_self hn (by omega))]
      rw [digit_char_toNat (n % 10) (Nat.mod_lt _ (by omega))]
      omega

theorem isDigit_ne_char (c x : Char) (h : c.isDigit = true) (hx : x.isDigit = false) :
    c ≠ x := by
  intro he
  subst he
  rw [h] at hx
  cases hx

theorem isDigit_not_whitespace (c : Char) (h : c.isDigit = true) :
    c.isWhitespace = false := by
  have h1 : c ≠ ' ' := isDigit_ne_char c ' ' h (by decide)
  have h2 : c ≠ '\t' := isDigit_ne_char c '\t' h (by decide)
  have h3 : c ≠ '\r' := isDigit_ne_char c '\r' h (by decide)
  have h4 : c ≠ '\n' := isDigit_ne_char c '\n' h (by decide)
  simp [Char.isWhitespace, h1, h2, h3, h4]

theorem takeWhile_of_all {p : Char → Bool} :
    ∀ l : Str, (∀ c ∈ l, p c = true) → l.takeWhile p = l := by
  intro l
  induction l with
  | nil => intro _; rfl
  | cons c t iht =>
    intro h
    rw [List.takeWhile_cons, h c (by simp)]
    simp [iht (fun x hx => h x (by simp [hx]))]

theorem parseIntJS_natToDecimal (n : Nat) :
    parseIntJS (natToDecimal n) = some (n : Int) := by
  have hd := natToDecimal_all_digits n
  obtain ⟨c, t, he⟩ : ∃ c t, natToDecimal n = c :: t := by
    cases h : natToDecimal n with
    | nil => exact absurd h (natToDecimal_ne_nil n)
    | cons c t => exact ⟨c, t, rfl⟩
  have hc : c.isDigit = true := hd c (by rw [he]; simp)
  have hdrop : (c :: t).dropWhile Char.isWhitespace = c :: t := by
    rw [List.dropWhile_cons, isDigit_not_whitespace c hc]
    simp
  have hcm : c ≠ '-' := isDigit_ne_char c '-' hc (by decide)
  have hcp : c ≠ '+' := isDigit_ne_char c '+' hc (by decide)
  rw [parseIntJS, he, hdrop]
  simp only [hcm, hcp, if_false]
  rw [parseLeadingDigits]
  have htake : (c :: t).takeWhile Char.isDigit = c :: t :=
    takeWhile_of_all (c :: t) (fun x hx => hd x (by rw [he]; exact hx))
  simp only [htake]
  have : digitsToNat (c :: t) = n := by rw [← he, digitsToNat_natToDecimal]
  simp [this]

theorem splitOnChar_no_sep (sep : Char) :
    ∀ a : Str, (∀ c ∈ a, c ≠ sep) → splitOnChar sep a = [a] := by
  intro a
  induction a with
  | nil => intro _; rfl
  | cons c t iht =>
    intro h
    have hc : c ≠ sep := h c (by simp)
    simp only [splitOnChar, hc, if_false]
    rw [iht (fun x hx => h x (by simp [hx]))]

theorem splitOnChar_append_sep (sep : Char) (b : Str) :
    ∀ a : Str, (∀ c ∈ a, c ≠ sep) →
      splitOnChar sep (a ++ sep :: b) = a :: splitOnChar sep b := by
  intro a
  induction a with
  | nil =>
    intro _
    simp [splitOnChar]
  | cons c t iht =>
    intro h
    have hc : c ≠ sep := h c (by simp)
    have ht := iht (fun x hx => h x (by simp [hx]))
    simp only [List.cons_append, splitOnChar, List.append_eq, ht, hc, if_false]

/-! Webhook signature verifier, modelling src/webhooks.ts. -/

/-- Error taxonomy of `constructEvent`: one constructor per `throw new Error`
site in src/webhooks.ts, in source order. -/
inductive WebhookError where
  | noSignature
  | invalidFormat
  | timestampTolerance
  | signatureFailed
  | invalidJson
deriving DecidableEq

/-- Key/value split of one comma-separated part of the signature header,
modelling `const [key, value] = part.split("=")`; the value is `none` when the
part has no equals sign (JavaScript `undefined`). -/
def kvOf (part : Str) : Str × Option Str :=
  match splitOnChar '=' part with
  | [] => ([], none)
  | [k] => (k, none)
  | k :: v :: _ => (k, some v)

/-- Accumulation loop of `constructEvent` over the header parts, assigning the
`t` and `v1` values; a later occurrence of the same key overwrites an earlier
one, other keys are ignored. -/
def scanParts (parts : List Str) : Option Str × Option Str :=
  parts.foldl
    (fun acc part =>
      let kv := kvOf part
      if kv.1 = ['t'] then (kv.2, acc.2)
      else if kv.1 = ['v', '1'] then (acc.1, kv.2)
      else acc)
    (none, none)

/-- JavaScript falsiness of an optional string, for the
`!timestamp || !providedSignature` check: `undefined` and the empty string are
falsy. -/
def strFalsy : Option Str → Bool
  | none => true
  | some s => s.isEmpty

/-- Model of `computeSignature` in src/webhooks.ts: HMAC-SHA256 over
`timestamp + "." + payload`, hex-encoded.  The digest function is the
`node:crypto` builtin `createHmac`, taken as the parameter `hmac` applied to
the secret and the signed payload. -/
def computeSignature (hmac : Str → Str → Str) (timestamp payload secret : Str) : Str :=
  hmac secret (timestamp ++ '.' :: payload)

/-- Model of `secureCompare` in src/webhooks.ts: reject on a length mismatch,
then compare with `timingSafeEqual`, which on equal-length UTF-8 buffers
decides equality of the strings. -/
def secureCompare (a b : Str) : Bool :=
  if a.length ≠ b.length then false else a == b

/-- Timestamp-tolerance test `currentTime - timestampSeconds > tolerance` of
`constructEvent`; when `parseInt` produced NaN (`none`) the JavaScript
comparison is false, so no rejection happens. -/
def tolExceeded (tsn : Option Int) (now tolerance : Int) : Bool :=
  match tsn with
  | none => false
  | some n => decide (now - n > tolerance)

/-- Model of `constructEvent` in src/webhooks.ts.  JSON parsing of the verified
payload is the builtin `JSON.parse`, taken as the parameter `parse` (`none`
models a parse failure); `now` is `Math.floor(Date.now() / 1000)`; an absent
`tolerance` option defaults to 300 seconds (via `??`, so an explicit 0 is
kept). -/
def constructEvent {E : Type} (hmac : Str → Str → Str) (parse : Str → Option E)
    (payload signature secret : Str) (toleranceOpt : Option Int) (now : Int) :
    Except WebhookError E :=
  if signature.isEmpty then .error .noSignature
  else if strFalsy (scanParts (splitOnChar ',' signature)).1
      || strFalsy (scanParts (splitOnChar ',' signature)).2 then .error .invalidFormat
  else if tolExceeded (parseIntJS ((scanParts (splitOnChar ',' signature)).1.getD []))
      now (toleranceOpt.getD 300) then .error .timestampTolerance
  else if secureCompare
      (computeSignature hmac ((scanParts (splitOnChar ',' signature)).1.getD []) payload secret)
      ((scanParts (splitOnChar ',' signature)).2.getD []) then
    match parse payload with
    | some e => .ok e
    | none => .error .invalidJson
  else .error .signatureFailed

/-- Model of `generateTestHeaderString` in src/webhooks.ts for a string payload
(an object payload is first serialized by `JSON.stringify`); the timestamp
defaults to the current time via `timestamp || now`, so an explicit 0 also
falls back to `now`. -/
def generateTestHeaderString (hmac : Str → Str → Str) (payload secret : Str)
    (timestamp : Option Nat) (now : Nat) : Str :=
  let ts :=
    match timestamp with
    | some t => if t = 0 then now else t
    | none => now
  't' :: '=' :: natToDecimal ts
    ++ ',' :: 'v' :: '1' :: '=' :: computeSignature hmac (natToDecimal ts) payload secret

theorem scanParts_pair (p1 p2 ts sig : Str)
    (h1 : kvOf p1 = (['t'], some ts)) (h2 : kvOf p2 = (['v', '1'], some sig)) :
    scanParts [p1, p2] = (some ts, some sig) := by
  simp [scanParts, h1, h2]

theorem kvOf_eq_key (k v : Str) (hk : ∀ c ∈ k, c ≠ '=') (hv : ∀ c ∈ v, c ≠ '=') :
    kvOf (k ++ '=' :: v) = (k, some v) := by
  rw [kvOf, splitOnChar_append_sep '=' v k hk, splitOnChar_no_sep '=' v hv]

/-- Evaluation of `constructEvent` on a header of the canonical shape
`t=<ts>,v1=<sig>` where neither value contains a separator character: the
format checks pass and the result is decided by the tolerance test, the
signature comparison and the JSON parse, in that order. -/
theorem constructEvent_header_parsed {E : Type} (hmac : Str → Str → Str)
    (parse : Str → Option E) (payload secret ts sig : Str)
    (toleranceOpt : Option Int) (now : Int)
    (hts_ne : ts ≠ []) (hts_c : ∀ c ∈ ts, c ≠ ',') (hts_e : ∀ c ∈ ts, c ≠ '=')
    (hsig_ne : sig ≠ []) (hsig_c : ∀ c ∈ sig, c ≠ ',') (hsig_e : ∀ c ∈ sig, c ≠ '=') :
    constructEvent hmac parse payload
        ('t' :: '=' :: ts ++ ',' :: 'v' :: '1' :: '=' :: sig) secret toleranceOpt now
      = if tolExceeded (parseIntJS ts) now (toleranceOpt.getD 300) then
          .error .timestampTolerance
        else if secureCompare (computeSignature hmac ts payload secret) sig then
          match parse payload with
          | some e => .ok e
          | none => .error .invalidJson
        else .error .signatureFailed := by
  have hsplit : splitOnChar ',' ('t' :: '=' :: ts ++ ',' :: 'v' :: '1' :: '=' :: sig)
      = [('t' :: '=' :: ts), ('v' :: '1' :: '=' :: sig)] := by
    have hform : 't' :: '=' :: ts ++ ',' :: 'v' :: '1' :: '=' :: sig
        = ('t' :: '=' :: ts) ++ ',' :: ('v' :: '1' :: '=' :: sig) := by simp
    rw [hform, splitOnChar_append_sep ',' _ _ ?ha, splitOnChar_no_sep ',' _ ?hb]
    case ha =>
      intro c hc
      simp only [List.mem_cons] at hc
      rcases hc with rfl | rfl | hc
      · decide
      · decide
      · exact hts_c c hc
    case hb =>
      intro c hc
      simp only [List.mem_cons] at hc
      rcases hc with rfl | rfl | rfl | hc
      · decide
      · decide
      · decide
      · exact hsig_c c hc
  have hkv1 : kvOf ('t' :: '=' :: ts) = (['t'], some ts) := by
    have := kvOf_eq_key ['t'] ts
      (by
        intro c hc
        simp only [List.mem_cons, List.not_mem_nil, or_false] at hc
        subst hc
        decide) hts_e
    simpa using this
  have hkv2 : kvOf ('v' :: '1' :: '=' :: sig) = (['v', '1'], some sig) := by
    have := kvOf_eq_key ['v', '1'] sig
      (by
        intro c hc
        simp only [List.mem_cons, List.not_mem_nil, or_false] at hc
        rcases hc with rfl | rfl
        · decide
        · decide) hsig_e
    simpa using this
  have hscan : scanParts (splitOnChar ',' ('t' :: '=' :: ts ++ ',' :: 'v' :: '1' :: '=' :: sig))
      = (some ts, some sig) := by
    rw [hsplit]
    exact scanParts_pair _ _ ts sig hkv1 hkv2
  have hts_empty : ts.isEmpty = false := by
    cases ts with
    | nil => exact absurd rfl hts_ne
    | cons c t => rfl
  have hsig_empty : sig.isEmpty = false := by
    cases sig with
    | nil => exact absurd rfl hsig_ne
    | cons c t => rfl
  rw [constructEvent]
  simp only [hscan, List.isEmpty_cons, strFalsy, hts_empty, hsig_empty,
    Bool.or_self, Option.getD_some, if_false]
  rfl

/-! JWT expiry check and auth providers, modelling the auth source (decodeJWT,
isTokenExpired) and auth-provider source (StaticTokenProvider,
RefreshableAuthProvider). -/

/-- Outcome of `atob` plus `JSON.parse` on the middle JWT segment: failure
(either builtin threw), or the decoded claims, abstracted to their numeric
`exp` field (`none` = the claim is absent). -/
inductive DecodeResult where
  | fail
  | ok (exp : Option Int)
deriving DecidableEq

/-- Model of `decodeJWT` (auth source, lines 51-70): split the token on `"."`,
demand exactly three parts and a nonempty middle part, then decode that part;
the base64url/JSON step is the builtin composite `payloadDecode`.  A thrown
error anywhere is `.fail`. -/
def decodeJWT (payloadDecode : Str → DecodeResult) (token : Str) : DecodeResult :=
  match splitOnChar '.' token with
  | [_, p, _] => if p.isEmpty then .fail else payloadDecode p
  | _ => .fail

/-- Model of `isTokenExpired` (auth source, lines 75-85): `now` is `Date.now()`
in milliseconds (nonnegative by the epoch clock); a decode failure or a
missing or zero (falsy) `exp` claim counts as expired, otherwise the token is
expired iff `exp * 1000 < now + 30000`. -/
def isTokenExpired (payloadDecode : Str → DecodeResult) (token : Str) (now : Nat) : Bool :=
  match decodeJWT payloadDecode token with
  | .fail => true
  | .ok none => true
  | .ok (some e) => if e = 0 then true else decide (e * 1000 < (now : Int) + 30000)

/-! HTTP request pipeline, modelling src/http-client.ts. -/

/-- Value of the `retryAfter` field of a rate-limit error as computed at
src/http-client.ts lines 172-175: `absent` models `undefined` (header absent or
empty), `nan` a header `Number.parseInt` could not parse, `val n` a parsed
integer. -/
inductive RetryAfterVal where
  | absent
  | nan
  | val (n : Int)
deriving DecidableEq

/-- Error taxonomy of the Yoto error classes (src/src/yoto.ts lines 61-152):
one constructor per concrete subclass, tagged by the dynamic class so that the
pipeline's `instanceof` tests become constructor tests.  Each constructor
carries its class constructor's parameters: `authentication` is
`YotoAuthenticationError(message, code?, requestId?, url?, method?)`,
`rateLimit` is `YotoRateLimitError(message, retryAfter?, code?, requestId?,
url?, method?)`, `api` is `YotoAPIError(message, statusCode, type?, code?,
requestId?, url?, method?)` and `connection` is `YotoConnectionError(message)`.
The per-class constants (statusCode 401/429 and the `type` strings
"authentication_error" / "rate_limit_error" / "connection_error") are
determined by the tag and therefore not stored.  `raw` stands for any thrown
value that is none of the Yoto error classes - e.g. a network-level `fetch`
rejection, a timeout abort, or a JSON body parse failure - which the
`instanceof` tests do not match. -/
inductive YotoError where
  | authentication (message : String) (code : Option String)
      (requestId : Option String) (url : String) (method : String)
  | rateLimit (message : String) (retryAfter : RetryAfterVal) (code : Option String)
      (requestId : Option String) (url : String) (method : String)
  | api (message : String) (status : Nat) (errType : Option String) (code : Option String)
      (requestId : Option String) (url : String) (method : String)
  | connection (message : String)
  | raw
deriving DecidableEq

/-- Parsed `error` object of a non-2xx JSON response body
(`errorData.error.message/code/type`); each field may be absent. -/
structure ErrBody where
  message : Option String
  code : Option String
  errType : Option String
deriving DecidableEq

/-- Shape of a non-2xx HTTP response as consumed by `handleErrorResponse`
(src/http-client.ts lines 149-195): status code, status text, the
`X-Request-Id` and `Retry-After` headers (`none` = absent), and the JSON error
body when it parsed (`none` = the body was not JSON). -/
structure ErrResponse where
  status : Nat
  statusText : String
  requestIdHeader : Option String
  retryAfterHeader : Option String
  body : Option ErrBody
deriving DecidableEq

/-- JavaScript `a || b` for an optional string scrutinee: an absent or empty
string falls through to the alternative. -/
def strOrElse (a : Option String) (b : String) : String :=
  match a with
  | some s => if s = "" then b else s
  | none => b

/-- Message `errorData?.error?.message || response.statusText || "Unknown error"`. -/
def respMessage (r : ErrResponse) : String :=
  strOrElse (r.body.bind ErrBody.message) (strOrElse (some r.statusText) "Unknown error")

/-- Code field `errorData?.error?.code`, taken verbatim. -/
def respCode (r : ErrResponse) : Option String :=
  r.body.bind ErrBody.code

/-- Type field `errorData?.error?.type`, taken verbatim. -/
def respErrType (r : ErrResponse) : Option String :=
  r.body.bind ErrBody.errType

/-- Request id `response.headers.get("X-Request-Id") || undefined`. -/
def respRequestId (r : ErrResponse) : Option String :=
  match r.requestIdHeader with
  | some s => if s = "" then none else some s
  | none => none

/-- Value `retryAfter ? Number.parseInt(retryAfter, 10) : undefined` computed
from the `Retry-After` header; a failed parse is JavaScript NaN. -/
def respRetryAfter (r : ErrResponse) : RetryAfterVal :=
  match r.retryAfterHeader with
  | none => .absent
  | some h =>
    if h = "" then .absent
    else
      match parseIntJS h.data with
      | none => .nan
      | some n => .val n

/-- Model of `HttpClient.handleErrorResponse` (src/http-client.ts lines
149-195): classify a non-2xx response into an authentication error (status
401), a rate-limit error (status 429, with the parsed `Retry-After` value) or
a generic API error, each carrying message/code/requestId/url/method. -/
def handleErrorResponse (r : ErrResponse) (url method : String) : YotoError :=
  if r.status = 401 then
    .authentication (respMessage r) (respCode r) (respRequestId r) url method
  else if r.status = 429 then
    .rateLimit (respMessage r) (respRetryAfter r) (respCode r) (respRequestId r) url method
  else
    .api (respMessage r) r.status (respErrType r) (respCode r) (respRequestId r) url method

/-- Truthiness of the `retryAfter` argument inside `calculateRetryDelay`
(`if (retryAfter)`): `undefined`, NaN and `0` are all falsy. -/
def retryAfterTruthy : RetryAfterVal → Bool
  | .val n => n != 0
  | _ => false

/-- Numeric content of a truthy retry-after value. -/
def retryAfterNum : RetryAfterVal → Int
  | .val n => n
  | _ => 0

/-- Model of `HttpClient.calculateRetryDelay` (src/http-client.ts lines
197-207): a truthy retry-after value gives exactly that many seconds in
milliseconds; otherwise exponential backoff `1000 * 2 ^ attempt` plus the
sampled jitter `Math.random() * 1000`, capped at 10000 ms.  The jitter sample
is modelled as a rational parameter. -/
def calculateRetryDelay (attempt : Nat) (retryAfter : RetryAfterVal) (jitter : ℚ) : ℚ :=
  if retryAfterTruthy retryAfter then (retryAfterNum retryAfter : ℚ) * 1000
  else min ((1000 : ℚ) * 2 ^ attempt + jitter) 10000

/-- Outcome of one iteration of the `try` block of `HttpClient.request`: the
parsed JSON body, or the error thrown during that attempt (by the token fetch,
by `fetch` itself, by `handleErrorResponse`, or by body parsing). -/
abbrev AttemptOutcome (T : Type) := Except YotoError T

/-- Errors that the `catch` block of `HttpClient.request` rethrows without any
retry: `error instanceof YotoAuthenticationError || error instanceof
YotoConnectionError` (src/http-client.ts lines 106-111). -/
def isAuthOrConn : YotoError → Bool
  | .authentication _ _ _ _ _ => true
  | .connection _ => true
  | _ => false

/-- Retry-after value that the retry branch passes to `calculateRetryDelay`:
the error's own field for a rate-limit error (`error.retryAfter`), `undefined`
for every other retried error. -/
def errRetryAfter : YotoError → RetryAfterVal
  | .rateLimit _ ra _ _ _ _ => ra
  | _ => .absent

/-- Observable outcome of one `HttpClient.request` call: the value returned or
error thrown, the number of attempts (iterations of the try block) performed,
and the list of delays passed to `sleep`, in order. -/
structure RunResult (T : Type) where
  result : Except YotoError T
  attemptsUsed : Nat
  sleeps : List ℚ

/-- Modelled loop of `HttpClient.request` (src/http-client.ts lines 38-130).
`step a` is the outcome of the try block at attempt `a` and `jitter a` the
random sample used if that attempt computes an exponential backoff delay;
`fuel` equals `maxRetries + 1 - attempt` and realises the bounded `for` loop;
`lastErr` mirrors the `lastError` variable; `sleeps` accumulates the delays in
reverse.  The fuel-exhausted clause is the (unreachable) `throw lastError ||
new YotoConnectionError(...)` after the loop. -/
def requestGo {T : Type} (maxRetries : Nat) (step : Nat → AttemptOutcome T)
    (jitter : Nat → ℚ) : Nat → Nat → List ℚ → Option YotoError → RunResult T
  | attempt, 0, sleeps, lastErr =>
    ⟨.error (lastErr.getD (.connection "Request failed after retries")), attempt, sleeps.reverse⟩
  | attempt, fuel + 1, sleeps, _ =>
    match step attempt with
    | .ok v => ⟨.ok v, attempt + 1, sleeps.reverse⟩
    | .error e =>
      if isAuthOrConn e then ⟨.error e, attempt + 1, sleeps.reverse⟩
      else if attempt < maxRetries then
        requestGo maxRetries step jitter (attempt + 1) fuel
          (calculateRetryDelay attempt (errRetryAfter e) (jitter attempt) :: sleeps) (some e)
      else ⟨.error e, attempt + 1, sleeps.reverse⟩

/-- Model of `HttpClient.request`: run the retry loop from attempt 0. -/
def request {T : Type} (maxRetries : Nat) (step : Nat → AttemptOutcome T)
    (jitter : Nat → ℚ) : RunResult T :=
  requestGo maxRetries step jitter 0 (maxRetries + 1) [] none

/-- Configuration record `YotoConfig` as received by the `HttpClient`
constructor; `none` models an absent field.  NaN numeric fields are not
modelled. -/
structure YotoConfig where
  baseUrl : Option String
  timeout : Option Nat
  maxRetries : Option Nat
deriving DecidableEq

def DEFAULT_BASE_URL : String := "https://api.yotoplay.com"

def DEFAULT_TIMEOUT : Nat := 30000

def DEFAULT_MAX_RETRIES : Nat := 3

/-- JavaScript `config.x || DEFAULT` for a numeric option: an absent value and
`0` both select the default. -/
def numOrDefault (v : Option Nat) (d : Nat) : Nat :=
  match v with
  | some n => if n = 0 then d else n
  | none => d

/-- JavaScript `config.x || DEFAULT` for a string option: an absent value and
the empty string both select the default. -/
def strOrDefault (v : Option String) (d : String) : String :=
  match v with
  | some s => if s = "" then d else s
  | none => d

/-- Private fields of a constructed `HttpClient` (headers are not modelled;
no claim concerns them). -/
structure ClientState where
  baseUrl : String
  timeout : Nat
  maxRetries : Nat
deriving DecidableEq

/-- Model of the `HttpClient` constructor (src/http-client.ts lines 22-32):
each configured value passes through `||`, so falsy values select defaults. -/
def mkClient (config : YotoConfig) : ClientState :=
  ⟨strOrDefault config.baseUrl DEFAULT_BASE_URL,
    numOrDefault config.timeout DEFAULT_TIMEOUT,
    numOrDefault config.maxRetries DEFAULT_MAX_RETRIES⟩

/-- Request through a constructed client: the loop bound is the
constructor-applied `maxRetries`. -/
def requestViaClient {T : Type} (config : YotoConfig) (step : Nat → AttemptOutcome T)
    (jitter : Nat → ℚ) : RunResult T :=
  request (mkClient config).maxRetries step jitter

/-- Token pair held by a `RefreshableAuthProvider` (`TokenResponse` in
types/common.ts, string fields as returned by the OAuth endpoint). -/
structure TokenResponse where
  access_token : Str
  refresh_token : Str
  expires_in : Int
  token_type : Str
deriving DecidableEq

/-- Model of `StaticTokenProvider.getAccessToken` (auth-provider source, lines
100-106): returns the stored token, with no expiry check and no refresh. -/
def StaticTokenProvider.getAccessToken (accessToken : Str) : Str :=
  accessToken

/-- Model of `RefreshableAuthProvider.getAccessToken` (auth-provider source,
lines 124-134): when the held access token is expired, perform the network
refresh (whose outcome is the parameter `refreshOutcome`), store the refreshed
pair and return its access token; otherwise return the held token.  The
returned pair is the provider's token slot after the call. -/
def RefreshableAuthProvider.getAccessToken (payloadDecode : Str → DecodeResult)
    (now : Nat) (refreshOutcome : Except YotoError TokenResponse)
    (tokens : TokenResponse) : Except YotoError (Str × TokenResponse) :=
  if isTokenExpired payloadDecode tokens.access_token now then
    match refreshOutcome with
    | .error e => .error e
    | .ok t => .ok (t.access_token, t)
  else .ok (tokens.access_token, tokens)

/-! Claim theorems. -/

/-- C9: the HttpClient constructor applies each default on any falsy configured
value, not only an absent one: maxRetries = 0 yields an effective maxRetries
of 3 (so retries cannot be disabled by passing 0: the retry loop then performs
4 attempts on persistent failure), timeout = 0 yields 30000 ms, and
baseUrl = "" yields the default base URL, exactly as the absent values do. -/
theorem mkClient_falsy_defaults :
    mkClient ⟨some "", some 0, some 0⟩ = ⟨DEFAULT_BASE_URL, 30000, 3⟩ ∧
    mkClient ⟨none, none, none⟩ = ⟨DEFAULT_BASE_URL, 30000, 3⟩ ∧
    (mkClient ⟨none, none, some 0⟩).maxRetries = 3 ∧
    (requestViaClient ⟨none, none, some 0⟩
        (fun _ => (.error .raw : AttemptOutcome Nat)) (fun _ => 0)).attemptsUsed = 4 := by
  exact ⟨rfl, rfl, rfl, rfl⟩

/-- C7 (amended): for every attempt, when the retried error carries no usable
Retry-After value (absent or NaN), the delay is min(1000 * 2 ^ attempt + j,
10000) ms for the sampled jitter j in [0, 1000); a rate-limit error carrying a
nonzero Retry-After of r seconds yields exactly r * 1000 ms with no jitter and
no cap; but a Retry-After value of exactly 0 is falsy in the code's truthiness
test and falls back to the exponential-backoff formula instead of a 0 ms
delay. -/
theorem calculateRetryDelay_spec :
    (∀ (attempt : Nat) (jitter : ℚ), 0 ≤ jitter → jitter < 1000 →
      ∃ j, 0 ≤ j ∧ j < 1000 ∧
        calculateRetryDelay attempt .absent jitter = min (1000 * 2 ^ attempt + j) 10000 ∧
        calculateRetryDelay attempt .nan jitter = min (1000 * 2 ^ attempt + j) 10000) ∧
    (∀ (attempt : Nat) (jitter : ℚ) (r : Int), r ≠ 0 →
      calculateRetryDelay attempt (.val r) jitter = (r : ℚ) * 1000) ∧
    (∀ (attempt : Nat) (jitter : ℚ),
      calculateRetryDelay attempt (.val 0) jitter
        = min (1000 * 2 ^ attempt + jitter) 10000) := by
  refine ⟨fun attempt jitter h0 h1 => ⟨jitter, h0, h1, rfl, rfl⟩, ?_, ?_⟩
  · intro attempt jitter r hr
    simp [calculateRetryDelay, retryAfterTruthy, retryAfterNum, bne_iff_ne, hr]
  · intro attempt jitter
    simp [calculateRetryDelay, retryAfterTruthy]

/-- Witness for the amended C7 at attempt 2, jitter 1/2 and Retry-After 7. -/
theorem calculateRetryDelay_spec_witness :
    (∃ j, 0 ≤ j ∧ j < 1000 ∧
      calculateRetryDelay 2 .absent (1 / 2) = min (1000 * 2 ^ 2 + j) 10000 ∧
      calculateRetryDelay 2 .nan (1 / 2) = min (1000 * 2 ^ 2 + j) 10000) ∧
    calculateRetryDelay 2 (.val 7) (1 / 2) = (7 : ℚ) * 1000 :=
  ⟨calculateRetryDelay_spec.1 2 (1 / 2) (by norm_num) (by norm_num),
    calculateRetryDelay_spec.2.1 2 (1 / 2) 7 (by norm_num)⟩

/-- C7 counterexample: a rate-limit error carrying a Retry-After value of
r = 0 seconds does not yield the claimed r * 1000 = 0 ms delay; the code's
truthiness test treats 0 as absent and computes the exponential-backoff delay,
1000 ms at attempt 0 with zero jitter. -/
theorem calculateRetryDelay_zero_cex :
    calculateRetryDelay 0 (.val 0) 0 = 1000 ∧ (0 : ℚ) * 1000 = 0 ∧ (1000 : ℚ) ≠ 0 := by
  refine ⟨?_, by norm_num, by norm_num⟩
  simp [calculateRetryDelay, retryAfterTruthy]
  norm_num

/-- C6: over every decode outcome of an access token, isTokenExpired returns
false when the decoded exp claim lies more than 30 seconds after now (in
milliseconds: exp * 1000 > now + 30000), and returns true when exp * 1000 is
below now + 30000 (within 30 seconds of now or in the past), when the exp
claim is absent, and when decoding fails: fail-safe-expired, never
fail-safe-valid. -/
theorem isTokenExpired_spec (payloadDecode : Str → DecodeResult) (token : Str) (now : Nat) :
    (∀ e : Int, decodeJWT payloadDecode token = .ok (some e) →
      e * 1000 > (now : Int) + 30000 → isTokenExpired payloadDecode token now = false) ∧
    (∀ e : Int, decodeJWT payloadDecode token = .ok (some e) →
      e * 1000 < (now : Int) + 30000 → isTokenExpired payloadDecode token now = true) ∧
    (decodeJWT payloadDecode token = .ok none → isTokenExpired payloadDecode token now = true) ∧
    (decodeJWT payloadDecode token = .fail → isTokenExpired payloadDecode token now = true) := by
  refine ⟨?_, ?_, ?_, ?_⟩
  · intro e hd hgt
    have he : e ≠ 0 := by
      intro h0
      rw [h0] at hgt
      omega
    simp only [isTokenExpired, hd, if_neg he, decide_eq_false_iff_not, not_lt]
    omega
  · intro e hd hlt
    by_cases he : e = 0
    · subst he
      simp [isTokenExpired, hd]
    · simp only [isTokenExpired, hd, if_neg he, decide_eq_true_eq]
      omega
  · intro hd
    simp [isTokenExpired, hd]
  · intro hd
    simp [isTokenExpired, hd]

/-- Witness for C6: a token decoding to exp = 100 is not expired at epoch
time 0, and the undecodable token "x" is expired. -/
theorem isTokenExpired_spec_witness :
    isTokenExpired (fun _ => DecodeResult.ok (some 100)) ['a', '.', 'b', '.', 'c'] 0 = false ∧
    isTokenExpired (fun _ => DecodeResult.ok (some 100)) ['x'] 0 = true :=
  ⟨(isTokenExpired_spec (fun _ => DecodeResult.ok (some 100)) ['a', '.', 'b', '.', 'c'] 0).1
      100 (by decide) (by decide),
    (isTokenExpired_spec (fun _ => DecodeResult.ok (some 100)) ['x'] 0).2.2.2 (by decide)⟩

/-- C2 counterexample: a StaticTokenProvider holding the undecodable (hence
expired under the isTokenExpired criterion) token "x" returns it from
getAccessToken unchanged at any time: the provider exposes a token that is
expired at return time and performs no refresh. -/
theorem staticProvider_expired_token_cex :
    StaticTokenProvider.getAccessToken ['x'] = ['x'] ∧
    isTokenExpired (fun _ => DecodeResult.fail) ['x'] 0 = true :=
  ⟨rfl, by decide⟩

/-- C2 (amended): RefreshableAuthProvider.getAccessToken refreshes before
returning whenever the held token is expired - its result is then exactly the
refresh outcome - and never returns an access token that is expired at return
time provided the refreshed token is itself non-expired; StaticTokenProvider
performs no expiry check and returns its stored token unconditionally, so the
never-expired invariant holds only for the refreshable variant. -/
theorem authProvider_refresh_behavior (payloadDecode : Str → DecodeResult) (now : Nat)
    (refreshOutcome : Except YotoError TokenResponse) (tokens : TokenResponse)
    (hfresh : ∀ t, refreshOutcome = .ok t →
      isTokenExpired payloadDecode t.access_token now = false) :
    (∀ a st, RefreshableAuthProvider.getAccessToken payloadDecode now refreshOutcome tokens
        = .ok (a, st) →
      isTokenExpired payloadDecode a now = false ∧ a = st.access_token) ∧
    (isTokenExpired payloadDecode tokens.access_token now = true →
      RefreshableAuthProvider.getAccessToken payloadDecode now refreshOutcome tokens
        = refreshOutcome.map (fun t => (t.access_token, t))) ∧
    (∀ tok : Str, StaticTokenProvider.getAccessToken tok = tok) := by
  refine ⟨?_, ?_, fun tok => rfl⟩
  · intro a st h
    rw [RefreshableAuthProvider.getAccessToken.eq_def] at h
    by_cases hexp : isTokenExpired payloadDecode tokens.access_token now
    · rw [if_pos hexp] at h
      cases hro : refreshOutcome with
      | error e =>
        rw [hro] at h
        exact absurd h (by simp)
      | ok t =>
        rw [hro] at h
        simp only [Except.ok.injEq, Prod.mk.injEq] at h
        obtain ⟨h1, h2⟩ := h
        subst h2
        subst h1
        exact ⟨hfresh t hro, rfl⟩
    · rw [if_neg hexp] at h
      simp only [Except.ok.injEq, Prod.mk.injEq] at h
      obtain ⟨h1, h2⟩ := h
      subst h2
      subst h1
      simp only [Bool.not_eq_true] at hexp
      exact ⟨hexp, rfl⟩
  · intro hexp
    rw [RefreshableAuthProvider.getAccessToken.eq_def, if_pos hexp]
    cases refreshOutcome with
    | error e => rfl
    | ok t => rfl

/-- Witness for the amended C2: a provider holding the expired token "x"
performs the refresh and returns the fresh token "d.f.e", which is not
expired. -/
theorem authProvider_refresh_behavior_witness :
    RefreshableAuthProvider.getAccessToken
        (fun p => if p = ['f'] then DecodeResult.ok (some 100000) else DecodeResult.fail) 0
        (.ok ⟨['d', '.', 'f', '.', 'e'], ['r'], 3600, ['b']⟩) ⟨['x'], ['r'], 0, ['b']⟩
      = .ok (['d', '.', 'f', '.', 'e'], ⟨['d', '.', 'f', '.', 'e'], ['r'], 3600, ['b']⟩) ∧
    isTokenExpired
        (fun p => if p = ['f'] then DecodeResult.ok (some 100000) else DecodeResult.fail)
        ['d', '.', 'f', '.', 'e'] 0 = false := by
  have h := authProvider_refresh_behavior
    (fun p => if p = ['f'] then DecodeResult.ok (some 100000) else DecodeResult.fail) 0
    (.ok ⟨['d', '.', 'f', '.', 'e'], ['r'], 3600, ['b']⟩) ⟨['x'], ['r'], 0, ['b']⟩
    (fun t ht => by injection ht with h1; subst h1; decide)
  have heq := (h.2.1 (by decide)).trans rfl
  exact ⟨heq, ((h.1 _ _ heq).1: _)⟩

theorem requestGo_attempts_lower {T : Type} (maxRetries : Nat)
    (step : Nat → AttemptOutcome T) (jitter : Nat → ℚ) :
    ∀ fuel attempt sleeps lastErr,
      attempt + 1 ≤
        (requestGo maxRetries step jitter attempt (fuel + 1) sleeps lastErr).attemptsUsed := by
  intro fuel
  induction fuel with
  | zero =>
    intro attempt sleeps lastErr
    cases h : step attempt with
    | ok v => simp [requestGo, h]
    | error e =>
      by_cases ha : isAuthOrConn e
      · simp [requestGo, h, ha]
      · by_cases hlt : attempt < maxRetries
        · simp [requestGo, h, ha, hlt]
        · simp [requestGo, h, ha, hlt]
  | succ f ih =>
    intro attempt sleeps lastErr
    cases h : step attempt with
    | ok v => simp [requestGo, h]
    | error e =>
      by_cases ha : isAuthOrConn e
      · simp [requestGo, h, ha]
      · by_cases hlt : attempt < maxRetries
        · have hrec : requestGo maxRetries step jitter attempt (f + 1 + 1) sleeps lastErr
              = requestGo maxRetries step jitter (attempt + 1) (f + 1)
                  (calculateRetryDelay attempt (errRetryAfter e) (jitter attempt) :: sleeps)
                  (some e) := by
            simp only [requestGo, h]
            rw [if_neg ha, if_pos hlt]
          rw [hrec]
          exact le_trans (by omega) (ih (attempt + 1) _ _)
        · simp only [requestGo, h]
          rw [if_neg ha, if_neg hlt]

/-- C1 counterexample: with the default configuration, an attempt failing with
a raw network-level error (a fetch rejection or timeout abort, which is not an
instance of the connection-error class) is retried like a generic error: the
run performs 4 attempts and sleeps 3 times instead of propagating immediately
after the first attempt. -/
theorem request_raw_network_failure_retried_cex :
    (requestViaClient ⟨none, none, none⟩
        (fun _ => (.error .raw : AttemptOutcome Nat)) (fun _ => 0)).attemptsUsed = 4 ∧
    (requestViaClient ⟨none, none, none⟩
        (fun _ => (.error .raw : AttemptOutcome Nat)) (fun _ => 0)).sleeps.length = 3 :=
  ⟨rfl, rfl⟩

/-- C1 (amended): in the request pipeline, an error that is an instance of the
connection-error class - as a failed token refresh throws - is never retried:
at whatever attempt it occurs, the loop stops with that error with no sleep
and no further attempt; a raw network-level failure of fetch itself (DNS,
refused connection, timeout abort), which is not such an instance, is caught
by the generic retry branch and retried. -/
theorem request_connection_error_immediate {T : Type} :
    (∀ (maxRetries : Nat) (step : Nat → AttemptOutcome T) (jitter : Nat → ℚ)
      (msg : String) (attempt fuel : Nat) (sleeps : List ℚ) (lastErr : Option YotoError),
      step attempt = .error (.connection msg) →
      requestGo maxRetries step jitter attempt (fuel + 1) sleeps lastErr
        = ⟨.error (.connection msg), attempt + 1, sleeps.reverse⟩) ∧
    (∀ (maxRetries : Nat) (step : Nat → AttemptOutcome T) (jitter : Nat → ℚ),
      1 ≤ maxRetries → step 0 = .error .raw →
      2 ≤ (request maxRetries step jitter).attemptsUsed) := by
  constructor
  · intro maxRetries step jitter msg attempt fuel sleeps lastErr hstep
    simp only [requestGo, hstep]
    rw [if_pos (show isAuthOrConn (.connection msg) = true from rfl)]
  · intro maxRetries step jitter hmr h0
    obtain ⟨m, rfl⟩ : ∃ m, maxRetries = m + 1 := ⟨maxRetries - 1, by omega⟩
    have hstep1 : request (m + 1) step jitter
        = requestGo (m + 1) step jitter 1 (m + 1)
            (calculateRetryDelay 0 (errRetryAfter .raw) (jitter 0) :: []) (some .raw) := by
      rw [request]
      simp only [requestGo, h0]
      rw [if_neg (show ¬ isAuthOrConn YotoError.raw = true by decide), if_pos (by omega)]
    rw [hstep1]
    exact requestGo_attempts_lower (m + 1) step jitter m 1 _ _

/-- Witness for the amended C1: a connection error at attempt 0 stops a
maxRetries = 3 run after one attempt with no sleep, while a raw failure leads
to a second attempt. -/
theorem request_connection_error_immediate_witness :
    requestGo 3 (fun _ => (.error (.connection "boom") : AttemptOutcome Nat)) (fun _ => 0)
        0 4 [] none
      = ⟨.error (.connection "boom"), 1, []⟩ ∧
    2 ≤ (request 3 (fun _ => (.error .raw : AttemptOutcome Nat)) (fun _ => 0)).attemptsUsed := by
  constructor
  · have h := (request_connection_error_immediate (T := Nat)).1 3
      (fun _ => .error (.connection "boom")) (fun _ => 0) "boom" 0 3 [] none rfl
    simpa using h
  · exact (request_connection_error_immediate (T := Nat)).2 3
      (fun _ => .error .raw) (fun _ => 0) (by omega) rfl

/-- C8: whatever the pipeline configuration, if the first attempt's response
has HTTP status 401 then request performs exactly one network attempt, never
sleeps, and throws the authentication error carrying the message, code,
request id, url and method derived from that response. -/
theorem request_401_single_attempt {T : Type} (config : YotoConfig)
    (step : Nat → AttemptOutcome T) (jitter : Nat → ℚ) (r : ErrResponse)
    (url method : String) (hstatus : r.status = 401)
    (hstep : step 0 = .error (handleErrorResponse r url method)) :
    requestViaClient config step jitter
      = ⟨.error (.authentication (respMessage r) (respCode r) (respRequestId r) url method),
          1, []⟩ := by
  have hclass : handleErrorResponse r url method
      = .authentication (respMessage r) (respCode r) (respRequestId r) url method := by
    rw [handleErrorResponse, if_pos hstatus]
  rw [requestViaClient, request]
  simp only [requestGo, hstep, hclass]
  rw [if_pos (show isAuthOrConn
    (.authentication (respMessage r) (respCode r) (respRequestId r) url method)
      = true from rfl)]
  simp

/-- Witness for C8 on a concrete 401 response with default configuration. -/
theorem request_401_single_attempt_witness :
    requestViaClient ⟨none, none, none⟩
        (fun _ => (.error (handleErrorResponse ⟨401, "Unauthorized", none, none, none⟩ "u" "m")
          : AttemptOutcome Nat))
        (fun _ => 0)
      = ⟨.error (.authentication (respMessage ⟨401, "Unauthorized", none, none, none⟩)
            (respCode ⟨401, "Unauthorized", none, none, none⟩)
            (respRequestId ⟨401, "Unauthorized", none, none, none⟩) "u" "m"),
          1, []⟩ :=
  request_401_single_attempt ⟨none, none, none⟩
    (fun _ => .error (handleErrorResponse ⟨401, "Unauthorized", none, none, none⟩ "u" "m"))
    (fun _ => 0) ⟨401, "Unauthorized", none, none, none⟩ "u" "m" rfl rfl

theorem requestGo_all_retryable {T : Type} (maxRetries : Nat)
    (step : Nat → AttemptOutcome T) (jitter : Nat → ℚ) (elast : YotoError)
    (hlast : step maxRetries = .error elast)
    (hretry : ∀ j, j ≤ maxRetries → ∃ e, step j = .error e ∧ isAuthOrConn e = false) :
    ∀ fuel attempt sleeps lastErr, attempt + fuel = maxRetries →
      (requestGo maxRetries step jitter attempt (fuel + 1) sleeps lastErr).result
          = .error elast ∧
      (requestGo maxRetries step jitter attempt (fuel + 1) sleeps lastErr).attemptsUsed
          = maxRetries + 1 := by
  have hacl : isAuthOrConn elast = false := by
    obtain ⟨e, he, hac⟩ := hretry maxRetries le_rfl
    rw [hlast] at he
    injection he with he'
    subst he'
    exact hac
  intro fuel
  induction fuel with
  | zero =>
    intro attempt sleeps lastErr hsum
    have ha : attempt = maxRetries := by omega
    subst ha
    constructor <;> simp [requestGo, hlast, hacl]
  | succ f ih =>
    intro attempt sleeps lastErr hsum
    obtain ⟨e, he, hac⟩ := hretry attempt (by omega)
    have hlt : attempt < maxRetries := by omega
    have hrec : requestGo maxRetries step jitter attempt (f + 1 + 1) sleeps lastErr
        = requestGo maxRetries step jitter (attempt + 1) (f + 1)
            (calculateRetryDelay attempt (errRetryAfter e) (jitter attempt) :: sleeps)
            (some e) := by
      simp only [requestGo, he]
      rw [if_neg (by simp [hac]), if_pos hlt]
    rw [hrec]
    exact ih (attempt + 1) _ _ (by omega)

/-- C3 counterexample: constructed with maxRetries = 0, the pipeline does not
perform 0 + 1 = 1 attempt on persistent 429 responses: the constructor's
|| default turns the falsy 0 into 3, so 4 attempts are performed. -/
theorem request_429_constructed_zero_cex :
    (requestViaClient ⟨none, none, some 0⟩
        (fun _ => (.error (handleErrorResponse ⟨429, "Too Many Requests", none, none, none⟩
          "u" "m") : AttemptOutcome Nat))
        (fun _ => 0)).attemptsUsed = 4 :=
  rfl

/-- C3 (amended): for every N >= 1, a pipeline constructed with maxRetries = N
whose every attempt yields a 429 response with no Retry-After header performs
exactly N + 1 network attempts and then throws the rate-limit error classified
from the last attempt's response.  (N = 0 must be excluded: the constructor's
|| default turns it into 3 - see the counterexample.) -/
theorem request_429_exhausts_retries {T : Type} (config : YotoConfig) (N : Nat)
    (hN : config.maxRetries = some N) (hpos : N ≠ 0)
    (step : Nat → AttemptOutcome T) (jitter : Nat → ℚ)
    (resp : Nat → ErrResponse) (url method : String)
    (hstatus : ∀ j, (resp j).status = 429)
    (hra : ∀ j, (resp j).retryAfterHeader = none)
    (hstep : ∀ j, step j = .error (handleErrorResponse (resp j) url method)) :
    (requestViaClient config step jitter).attemptsUsed = N + 1 ∧
    (requestViaClient config step jitter).result
      = .error (.rateLimit (respMessage (resp N)) .absent (respCode (resp N))
          (respRequestId (resp N)) url method) := by
  have hmr : (mkClient config).maxRetries = N := by
    simp [mkClient, numOrDefault, hN, hpos]
  have hclass : ∀ j, handleErrorResponse (resp j) url method
      = .rateLimit (respMessage (resp j)) .absent (respCode (resp j))
          (respRequestId (resp j)) url method := by
    intro j
    have hrav : respRetryAfter (resp j) = .absent := by
      simp only [respRetryAfter, hra j]
    rw [handleErrorResponse, if_neg (by rw [hstatus j]; decide), if_pos (hstatus j), hrav]
  have h := requestGo_all_retryable (T := T) N step jitter
    (.rateLimit (respMessage (resp N)) .absent (respCode (resp N)) (respRequestId (resp N))
      url method)
    (by rw [hstep N, hclass N])
    (fun j _ => ⟨handleErrorResponse (resp j) url method, hstep j, by rw [hclass j]; rfl⟩)
  rw [requestViaClient, request, hmr]
  exact ⟨(h N 0 [] none (by omega)).2, (h N 0 [] none (by omega)).1⟩

/-- Witness for the amended C3 with N = 2 and a constant 429 dependency. -/
theorem request_429_exhausts_retries_witness :
    (requestViaClient ⟨none, none, some 2⟩
        (fun _ => (.error (handleErrorResponse ⟨429, "r", none, none, none⟩ "u" "m")
          : AttemptOutcome Nat))
        (fun _ => 0)).attemptsUsed = 2 + 1 ∧
    (requestViaClient ⟨none, none, some 2⟩
        (fun _ => (.error (handleErrorResponse ⟨429, "r", none, none, none⟩ "u" "m")
          : AttemptOutcome Nat))
        (fun _ => 0)).result
      = .error (.rateLimit (respMessage ⟨429, "r", none, none, none⟩) .absent
          (respCode ⟨429, "r", none, none, none⟩)
          (respRequestId ⟨429, "r", none, none, none⟩) "u" "m") :=
  request_429_exhausts_retries ⟨none, none, some 2⟩ 2 rfl (by decide)
    (fun _ => .error (handleErrorResponse ⟨429, "r", none, none, none⟩ "u" "m"))
    (fun _ => 0) (fun _ => ⟨429, "r", none, none, none⟩) "u" "m"
    (fun _ => rfl) (fun _ => rfl) (fun _ => rfl)

/-- C4: for every payload, every secret and any current time (shared by header
generation and verification), constructEvent applied to the header produced by
generateTestHeaderString for that payload and secret succeeds and returns the
event parsed from the payload.  The hypotheses record the facts about the hex
HMAC digest this relies on - nonempty and free of the two separator
characters, as a hex digest always is - and that the payload is
JSON-parseable with parse result v (JSON-serializable). -/
theorem constructEvent_roundtrip {E : Type} (hmac : Str → Str → Str)
    (parse : Str → Option E) (payload secret : Str) (now : Nat) (v : E)
    (hsig_ne : computeSignature hmac (natToDecimal now) payload secret ≠ [])
    (hsig_c : ∀ c ∈ computeSignature hmac (natToDecimal now) payload secret, c ≠ ',')
    (hsig_e : ∀ c ∈ computeSignature hmac (natToDecimal now) payload secret, c ≠ '=')
    (hparse : parse payload = some v) :
    constructEvent hmac parse payload
        (generateTestHeaderString hmac payload secret none now) secret none (now : Int)
      = .ok v := by
  have hts_digits := natToDecimal_all_digits now
  have hts_c : ∀ c ∈ natToDecimal now, c ≠ ',' :=
    fun c hc => isDigit_ne_char c ',' (hts_digits c hc) (by decide)
  have hts_e : ∀ c ∈ natToDecimal now, c ≠ '=' :=
    fun c hc => isDigit_ne_char c '=' (hts_digits c hc) (by decide)
  have hhdr : generateTestHeaderString hmac payload secret none now
      = 't' :: '=' :: natToDecimal now
          ++ ',' :: 'v' :: '1' :: '='
              :: computeSignature hmac (natToDecimal now) payload secret := rfl
  rw [hhdr, constructEvent_header_parsed hmac parse payload secret (natToDecimal now)
      (computeSignature hmac (natToDecimal now) payload secret) none (now : Int)
      (natToDecimal_ne_nil now) hts_c hts_e hsig_ne hsig_c hsig_e]
  rw [parseIntJS_natToDecimal]
  simp [tolExceeded, secureCompare, hparse]

/-- Witness for C4: the round trip at a concrete payload, secret, time and
digest function. -/
theorem constructEvent_roundtrip_witness :
    constructEvent (fun _ _ => ['a', 'b']) (fun s => if s = ['p'] then some 0 else none)
        ['p'] (generateTestHeaderString (fun _ _ => ['a', 'b']) ['p'] ['s'] none 5) ['s']
        none ((5 : Nat) : Int)
      = .ok 0 :=
  constructEvent_roundtrip (fun _ _ => ['a', 'b'])
    (fun s => if s = ['p'] then some 0 else none) ['p'] ['s'] 5 0
    (by decide) (by decide) (by decide) (by decide)

/-- C5: on a well-formed header t=ts,v1=sig whose timestamp string parses to
the integer n, constructEvent rejects with the timestamp-tolerance failure
exactly when now - n > tolerance (tolerance defaulting to 300 via the option):
a timestamp more than tolerance seconds in the past is rejected, the exact
boundary now - n = tolerance is accepted, and a future timestamp (now - n
negative) is always accepted, there being no upper-bound check. -/
theorem constructEvent_tolerance_iff {E : Type} (hmac : Str → Str → Str)
    (parse : Str → Option E) (payload secret ts sig : Str)
    (toleranceOpt : Option Int) (n now : Int)
    (hts_ne : ts ≠ []) (hts_c : ∀ c ∈ ts, c ≠ ',') (hts_e : ∀ c ∈ ts, c ≠ '=')
    (hsig_ne : sig ≠ []) (hsig_c : ∀ c ∈ sig, c ≠ ',') (hsig_e : ∀ c ∈ sig, c ≠ '=')
    (hn : parseIntJS ts = some n) :
    (constructEvent hmac parse payload
        ('t' :: '=' :: ts ++ ',' :: 'v' :: '1' :: '=' :: sig) secret toleranceOpt now
      = .error .timestampTolerance)
    ↔ now - n > toleranceOpt.getD 300 := by
  rw [constructEvent_header_parsed hmac parse payload secret ts sig toleranceOpt now
      hts_ne hts_c hts_e hsig_ne hsig_c hsig_e, hn]
  by_cases h : now - n > toleranceOpt.getD 300
  · simp [tolExceeded, h]
  · have htol : tolExceeded (some n) now (toleranceOpt.getD 300) = false := by
      simp [tolExceeded, h]
    rw [htol]
    cases hsc : secureCompare (computeSignature hmac ts payload secret) sig with
    | false => simp [hsc, h]
    | true =>
      cases hp : parse payload with
      | some e => simp [hsc, hp, h]
      | none => simp [hsc, hp, h]

/-- Witness for C5: at now = 1000 against timestamp string "5" the tolerance
window (default 300) is exceeded, matching 1000 - 5 > 300. -/
theorem constructEvent_tolerance_iff_witness :
    ((constructEvent (fun _ _ => ['a']) (fun _ => (some 0 : Option Nat)) ['p']
        ('t' :: '=' :: ['5'] ++ ',' :: 'v' :: '1' :: '=' :: ['s']) ['k'] none 1000
      = .error .timestampTolerance)
    ↔ (1000 : Int) - 5 > (none : Option Int).getD 300) :=
  constructEvent_tolerance_iff (fun _ _ => ['a']) (fun _ => (some 0 : Option Nat))
    ['p'] ['k'] ['5'] ['s'] none 5 1000
    (by decide) (by decide) (by decide) (by decide) (by decide) (by decide) (by decide)

/-- C10: when the t value of the header is present but does not parse as an
integer (parseInt yields NaN), constructEvent raises neither a format error
nor a timestamp-tolerance error: the NaN comparison is false, so verification
proceeds directly to the signature comparison, which signs over the original
timestamp string - it succeeds when the provided v1 value is the signature
computed over that original string, and for any other well-formed v1 value
the result is still never a no-signature, format or tolerance error. -/
theorem constructEvent_nonint_timestamp {E : Type} (hmac : Str → Str → Str)
    (parse : Str → Option E) (payload secret ts sig2 : Str) (now : Int) (v : E)
    (hts_ne : ts ≠ []) (hts_c : ∀ c ∈ ts, c ≠ ',') (hts_e : ∀ c ∈ ts, c ≠ '=')
    (hnan : parseIntJS ts = none)
    (hsig_ne : computeSignature hmac ts payload secret ≠ [])
    (hsig_c : ∀ c ∈ computeSignature hmac ts payload secret, c ≠ ',')
    (hsig_e : ∀ c ∈ computeSignature hmac ts payload secret, c ≠ '=')
    (hs2_ne : sig2 ≠ []) (hs2_c : ∀ c ∈ sig2, c ≠ ',') (hs2_e : ∀ c ∈ sig2, c ≠ '=')
    (hparse : parse payload = some v) :
    constructEvent hmac parse payload
        ('t' :: '=' :: ts ++ ',' :: 'v' :: '1' :: '='
          :: computeSignature hmac ts payload secret) secret none now = .ok v ∧
    constructEvent hmac parse payload
        ('t' :: '=' :: ts ++ ',' :: 'v' :: '1' :: '=' :: sig2) secret none now
      ≠ .error .timestampTolerance ∧
    constructEvent hmac parse payload
        ('t' :: '=' :: ts ++ ',' :: 'v' :: '1' :: '=' :: sig2) secret none now
      ≠ .error .invalidFormat ∧
    constructEvent hmac parse payload
        ('t' :: '=' :: ts ++ ',' :: 'v' :: '1' :: '=' :: sig2) secret none now
      ≠ .error .noSignature := by
  have h1 := constructEvent_header_parsed hmac parse payload secret ts
    (computeSignature hmac ts payload secret) none now
    hts_ne hts_c hts_e hsig_ne hsig_c hsig_e
  have h2 := constructEvent_header_parsed hmac parse payload secret ts sig2 none now
    hts_ne hts_c hts_e hs2_ne hs2_c hs2_e
  refine ⟨?_, ?_, ?_, ?_⟩
  · rw [h1, hnan]
    simp [tolExceeded, secureCompare, hparse]
  all_goals rw [h2, hnan]
  all_goals cases hsc : secureCompare (computeSignature hmac ts payload secret) sig2 with
  | false => simp [tolExceeded, hsc]
  | true => simp [tolExceeded, hsc, hparse]

/-- Witness for C10: the timestamp string "a" parses as NaN; verification at a
time far in the future of any tolerance window still reaches the signature
step and succeeds with the matching signature. -/
theorem constructEvent_nonint_timestamp_witness :
    constructEvent (fun _ _ => ['h']) (fun s => if s = ['p'] then some 0 else none) ['p']
        ('t' :: '=' :: ['a'] ++ ',' :: 'v' :: '1' :: '='
          :: computeSignature (fun _ _ => ['h']) ['a'] ['p'] ['k']) ['k'] none 1000000
      = .ok 0 ∧
    constructEvent (fun _ _ => ['h']) (fun s => if s = ['p'] then some 0 else none) ['p']
        ('t' :: '=' :: ['a'] ++ ',' :: 'v' :: '1' :: '=' :: ['z']) ['k'] none 1000000
      ≠ .error .timestampTolerance ∧
    constructEvent (fun _ _ => ['h']) (fun s => if s = ['p'] then some 0 else none) ['p']
        ('t' :: '=' :: ['a'] ++ ',' :: 'v' :: '1' :: '=' :: ['z']) ['k'] none 1000000
      ≠ .error .invalidFormat ∧
    constructEvent (fun _ _ => ['h']) (fun s => if s = ['p'] then some 0 else none) ['p']
        ('t' :: '=' :: ['a'] ++ ',' :: 'v' :: '1' :: '=' :: ['z']) ['k'] none 1000000
      ≠ .error .noSignature :=
  constructEvent_nonint_timestamp (fun _ _ => ['h'])
    (fun s => if s = ['p'] then some 0 else none) ['p'] ['k'] ['a'] ['z'] 1000000 0
    (by decide) (by decide) (by decide) (by decide) (by decide) (by decide) (by decide)
    (by decide) (by decide) (by decide) (by decide)

end YotoJS
